import Mathlib

/-!
Shallow embedding of the SiFive SPI master driver
(`src/chips/sifive/src/spi.rs` of this repository) and proofs about it.

Modelling conventions:

* Machine integers are `Nat`.  The target is rv32, so `usize` arithmetic
  wraps modulo `2^32` (release builds of the kernel do not trap on wrap);
  `wrapSub32` is the embedding of `usize` subtraction.  A register field of
  `NUMBITS(k)` masks the written value with `% 2^k` (tock-registers'
  `Field::val` applies the field mask).
* The driver state (`Cell`/`TakeCell`/`OptionalCell` contents) is the
  `DriverState` record; the peripheral registers and FIFOs that the driver
  logic observes are the `HwState` record.  `tx_fifo`/`rx_fifo` hold the
  byte queues, `clocked` records every byte the hardware has shifted out on
  the wire.  The slave is modelled as a loopback (the received byte equals
  the transmitted one); no claim below depends on received byte values.
* Fallible code returns `Option`: a `none` result models a Rust panic
  (a failed `assert!`, an out-of-bounds index, a slice out of range, or
  `Option::unwrap` on `None`).
* Hardware clocking is modelled by `hw_clock`, which shifts every byte of
  the transmit FIFO out on the wire and enqueues the responses in the
  receive FIFO; `pending_irq` is the condition under which the kernel's
  interrupt dispatcher invokes `handle_interrupt` (an enabled watermark
  condition is pending: `ip.rxwm` is set when the receive FIFO occupancy
  exceeds `rxmark`, `ip.txwm` when the transmit FIFO occupancy is below
  `txmark`).  `spi_run` iterates clock-then-interrupt until quiescence.
-/

namespace SifiveSpi

/-- Error codes used by the driver (`kernel::ErrorCode`): `INVAL` and `BUSY`
are the only ones this driver returns. -/
inductive ErrorCode where
  | INVAL
  | BUSY
deriving DecidableEq

/-- Clock polarity (`kernel::hil::spi::ClockPolarity`). -/
inductive ClockPolarity where
  | idleLow
  | idleHigh
deriving DecidableEq

/-- Clock phase (`kernel::hil::spi::ClockPhase`). -/
inductive ClockPhase where
  | sampleLeading
  | sampleTrailing
deriving DecidableEq

/-- The mutable driver state of `struct Spi`: the `busy` cell, the two
buffer-ownership `TakeCell`s, the three offset/length cells, and whether a
client has been registered in the `OptionalCell`. -/
structure DriverState where
  busy : Bool
  tx_buf : Option (List Nat)
  rx_buf : Option (List Nat)
  io_len : Nat
  tx_offset : Nat
  rx_offset : Nat
  client : Bool
deriving DecidableEq

/-- The peripheral state the driver logic interacts with: the transmit and
receive FIFOs (depth 8), the log of bytes clocked out on the wire, and the
registers `sckdiv`, `sckmode` (`pha`, `pol` bits), `txmark`, `rxmark`,
`ie` (`txwm`, `rxwm` bits) and the `csmode` framing mode (`true` = HOLD). -/
structure HwState where
  tx_fifo : List Nat
  rx_fifo : List Nat
  clocked : List Nat
  sckdiv : Nat
  sckmode_pha : Nat
  sckmode_pol : Nat
  txmark : Nat
  rxmark : Nat
  ie_txwm : Bool
  ie_rxwm : Bool
  csmode_hold : Bool
deriving DecidableEq

/-- Result of `read_write_bytes`: `Ok(())`, or an error carrying back the
two buffers exactly as the source's error tuple does. -/
inductive RwResult where
  | ok : RwResult
  | err : ErrorCode → List Nat → Option (List Nat) → RwResult
deriving DecidableEq

/-- Result of `set_rate`. -/
inductive RateResult where
  | ok : Nat → RateResult
  | err : ErrorCode → RateResult
deriving DecidableEq

/-- Result of the polarity/phase setters. -/
inductive CfgResult where
  | ok : CfgResult
  | err : ErrorCode → CfgResult
deriving DecidableEq

/-- Completion-callback event: the arguments of
`client.read_write_done(tx_buf, rx_buf, io_len, Ok(()))`. -/
structure CbEvent where
  txb : List Nat
  rxb : Option (List Nat)
  len : Nat
deriving DecidableEq

/-- Wrapping subtraction on the 32-bit `usize` of the rv32 target
(Rust release semantics: two's-complement wrap). -/
def wrapSub32 (x y : Nat) : Nat :=
  (x + (4294967296 - y % 4294967296)) % 4294967296

/-- Raw pending bit `ip.rxwm`: receive FIFO occupancy exceeds `rxmark`. -/
def ip_rxwm (h : HwState) : Bool := decide (h.rxmark < h.rx_fifo.length)

/-- Raw pending bit `ip.txwm`: transmit FIFO occupancy is below `txmark`. -/
def ip_txwm (h : HwState) : Bool := decide (h.tx_fifo.length < h.txmark)

/-- Embedding of `fn read_write_bytes` (spi.rs lines 190-244).  Mirrors the
source statement by statement: the `tx_len == 0` check, the busy check,
`rx_len` (`0` when no read buffer is supplied), `io_len = min(tx_len,
rx_len)`, the initial burst of `min(7, io_len)` bytes pushed into the
transmit FIFO, the state updates, the `rxmark` write of
`(tx_len - 1) as u32` (wrapping), the conditional `txmark` write, and the
final `ie` update (txwm cleared, rxwm set). -/
def read_write_bytes (d : DriverState) (h : HwState)
    (write_buffer : List Nat) (read_buffer : Option (List Nat)) (len : Nat) :
    RwResult × DriverState × HwState :=
  let tx_len := min len write_buffer.length
  if tx_len = 0 then (.err .INVAL write_buffer read_buffer, d, h)
  else if d.busy then (.err .BUSY write_buffer read_buffer, d, h)
  else
    let d1 : DriverState := { d with busy := true }
    let rx_len := match read_buffer with
      | none => 0
      | some rx_buf => rx_buf.length
    let io_len := min tx_len rx_len
    let tx_len2 := min 7 io_len
    let h1 : HwState :=
      { h with tx_fifo := h.tx_fifo ++ (write_buffer.take tx_len2).map (fun v => v % 256) }
    let d2 : DriverState :=
      { d1 with io_len := io_len, tx_offset := tx_len2, tx_buf := some write_buffer }
    let d3 : DriverState := match read_buffer with
      | none => d2
      | some rx_buf => { d2 with rx_offset := 0, rx_buf := some rx_buf }
    let h2 : HwState := { h1 with rxmark := wrapSub32 tx_len2 1 % 8 }
    let h3 : HwState := if d3.rx_offset ≠ d3.io_len then { h2 with txmark := 1 } else h2
    let h4 : HwState := { h3 with ie_txwm := false, ie_rxwm := true }
    (.ok, d3, h4)

/-- Embedding of `fn set_rate` (spi.rs lines 272-290): range check first,
busy check second, then `div = 8_000_000 / rate - 1` programmed into the
12-bit `sckdiv.div` field. -/
def set_rate (d : DriverState) (h : HwState) (rate : Nat) : RateResult × HwState :=
  if rate < 1954 ∨ 8000000 < rate then (.err .INVAL, h)
  else if d.busy then (.err .BUSY, h)
  else
    let real_rate := rate
    let div := 8000000 / real_rate - 1
    (.ok real_rate, { h with sckdiv := div % 4096 })

/-- Embedding of `fn get_rate` (spi.rs lines 292-297). -/
def get_rate (h : HwState) : Nat :=
  8000000 / (h.sckdiv + 1)

/-- Embedding of `fn set_polarity` (spi.rs lines 299-310).  The source uses
`sckmode.write(sckmode::pol.val(val))`, a whole-register write: the `pha`
bit is reset to 0. -/
def set_polarity (d : DriverState) (h : HwState) (polarity : ClockPolarity) :
    CfgResult × HwState :=
  if d.busy then (.err .BUSY, h)
  else
    let val := match polarity with
      | .idleLow => 0
      | .idleHigh => 1
    (.ok, { h with sckmode_pol := val % 2, sckmode_pha := 0 })

/-- Embedding of `fn get_polarity` (spi.rs lines 312-318); the source's
`unreachable!` arm is a panic, modelled as `none`. -/
def get_polarity (h : HwState) : Option ClockPolarity :=
  match h.sckmode_pol with
  | 0 => some .idleLow
  | 1 => some .idleHigh
  | _ => none

/-- Embedding of `fn set_phase` (spi.rs lines 320-331).  The source uses
`sckmode.write(sckmode::pha.val(val))`, a whole-register write: the `pol`
bit is reset to 0. -/
def set_phase (d : DriverState) (h : HwState) (phase : ClockPhase) :
    CfgResult × HwState :=
  if d.busy then (.err .BUSY, h)
  else
    let val := match phase with
      | .sampleLeading => 0
      | .sampleTrailing => 1
    (.ok, { h with sckmode_pha := val % 2, sckmode_pol := 0 })

/-- Embedding of `fn get_phase` (spi.rs lines 333-339). -/
def get_phase (h : HwState) : Option ClockPhase :=
  match h.sckmode_pha with
  | 0 => some .sampleLeading
  | 1 => some .sampleTrailing
  | _ => none

/-- Embedding of `fn init` (spi.rs lines 151-179), restricted to the
modelled registers and cells. -/
def init (d : DriverState) (h : HwState) : DriverState × HwState :=
  let h1 : HwState :=
    { h with sckmode_pha := 0, sckmode_pol := 0, ie_txwm := false, ie_rxwm := false,
             txmark := 0, csmode_hold := true }
  let d1 : DriverState :=
    { d with io_len := 0, tx_offset := 0, rx_offset := 0, busy := false }
  (d1, h1)

/-- Receive drain loop of `handle_interrupt` for the branch that owns a
receive buffer (spi.rs lines 388-398): while `rx_offset != tx_offset`,
assert the receive FIFO is not empty (`none` on violation), pop a byte,
store it at `rx_buf[rx_offset]` (`none` if the index is out of bounds),
and increment `rx_offset`.  Returns the final offset, the remaining FIFO
and the updated buffer. -/
def rx_drain_save : Nat → Nat → List Nat → List Nat →
    Option (Nat × List Nat × List Nat)
  | txo, rxo, [], rb =>
    if rxo = txo then some (rxo, [], rb) else none
  | txo, rxo, v :: rest, rb =>
    if rxo = txo then some (rxo, v :: rest, rb)
    else if rxo < rb.length then rx_drain_save txo (rxo + 1) rest (rb.set rxo v)
    else none

/-- Receive drain loop of `handle_interrupt` for the branch with no receive
buffer (spi.rs lines 379-387): identical, but drained bytes are discarded
(the FIFO entry still must be read) and there is no final empty assertion. -/
def rx_drain_discard : Nat → Nat → List Nat → Option (Nat × List Nat)
  | txo, rxo, [] =>
    if rxo = txo then some (rxo, []) else none
  | txo, rxo, v :: rest =>
    if rxo = txo then some (rxo, v :: rest)
    else rx_drain_discard txo (rxo + 1) rest

/-- Transmit refill loop of `handle_interrupt` (spi.rs lines 417-422): for
each byte of the slice, assert the transmit FIFO is not full (depth 8;
`none` on violation) and push the byte (masked to the 8-bit data field). -/
def tx_push : List Nat → List Nat → Option (List Nat)
  | [], fifo => some fifo
  | b :: rest, fifo =>
    if fifo.length < 8 then tx_push rest (fifo ++ [b % 256])
    else none

/-- Receive-watermark phase of `handle_interrupt` (spi.rs lines 367-407):
if `ip.rxwm` is pending, drain the receive FIFO until `rx_offset` catches
up with `tx_offset` (saving into the receive buffer when one is owned,
with the final `assert!(rxempty == 1)`; discarding otherwise), then, if
`tx_offset != io_len`, enable the transmit-watermark interrupt and disable
the receive one. -/
def rx_phase (d : DriverState) (h : HwState) : Option (DriverState × HwState) :=
  if ip_rxwm h then
    match d.rx_buf with
    | none =>
      match rx_drain_discard d.tx_offset d.rx_offset h.rx_fifo with
      | none => none
      | some (rxo, fifo) =>
        let d1 : DriverState := { d with rx_offset := rxo }
        let h1 : HwState := { h with rx_fifo := fifo }
        some (d1, if d1.tx_offset ≠ d1.io_len
                  then { h1 with ie_txwm := true, ie_rxwm := false } else h1)
    | some rx_buf =>
      match rx_drain_save d.tx_offset d.rx_offset h.rx_fifo rx_buf with
      | none => none
      | some (rxo, fifo, rb) =>
        if fifo.length = 0 then
          let d1 : DriverState := { d with rx_offset := rxo, rx_buf := some rb }
          let h1 : HwState := { h with rx_fifo := fifo }
          some (d1, if d1.tx_offset ≠ d1.io_len
                    then { h1 with ie_txwm := true, ie_rxwm := false } else h1)
        else none
  else some (d, h)

/-- Transmit-watermark phase of `handle_interrupt` (spi.rs lines 410-434):
if `ip.txwm` is pending, compute `end_offset = min(tx_offset + 7, io_len)`,
push `tx_buf[tx_offset..end_offset]` into the transmit FIFO when the
transmit buffer is owned (`none` on a slice panic or a full FIFO),
advance `tx_offset`, then (buffer owned or not) write
`rxmark = (end_offset - tx_offset - 1) as u32` (wrapping) and switch the
interrupt enables to receive. -/
def tx_phase (d : DriverState) (h : HwState) : Option (DriverState × HwState) :=
  if ip_txwm h then
    match d.tx_buf with
    | none =>
      some (d,
        { h with rxmark :=
                   wrapSub32 (wrapSub32 (min (d.tx_offset + 7) d.io_len) d.tx_offset) 1 % 8,
                 ie_txwm := false, ie_rxwm := true })
    | some tx_buf =>
      if d.tx_offset ≤ min (d.tx_offset + 7) d.io_len ∧
          min (d.tx_offset + 7) d.io_len ≤ tx_buf.length then
        match tx_push
            ((tx_buf.drop d.tx_offset).take (min (d.tx_offset + 7) d.io_len - d.tx_offset))
            h.tx_fifo with
        | none => none
        | some fifo =>
          some ({ d with tx_offset := min (d.tx_offset + 7) d.io_len, tx_buf := some tx_buf },
                { h with tx_fifo := fifo,
                         rxmark :=
                           wrapSub32 (wrapSub32 (min (d.tx_offset + 7) d.io_len) d.tx_offset) 1 % 8,
                         ie_txwm := false, ie_rxwm := true })
      else none
  else some (d, h)

/-- Completion check of `handle_interrupt` (spi.rs lines 436-463): when
both offsets equal `io_len`, pulse `csmode` (AUTO then back to HOLD),
disable both watermark interrupts, and — if a client is registered — emit
the callback with `tx_buf.take().unwrap()` (`none` i.e. panic when the
transmit cell is empty), `rx_buf.take()` and `io_len`; finally reset all
counters and clear `busy`. -/
def complete_phase (d : DriverState) (h : HwState) :
    Option (DriverState × HwState × Option CbEvent) :=
  if d.tx_offset = d.io_len ∧ d.rx_offset = d.io_len then
    if d.client then
      match d.tx_buf with
      | none => none
      | some tb =>
        some ({ d with tx_buf := none, rx_buf := none,
                       io_len := 0, rx_offset := 0, tx_offset := 0, busy := false },
              { h with csmode_hold := true, ie_txwm := false, ie_rxwm := false },
              some (CbEvent.mk tb d.rx_buf d.io_len))
    else
      some ({ d with io_len := 0, rx_offset := 0, tx_offset := 0, busy := false },
            { h with csmode_hold := true, ie_txwm := false, ie_rxwm := false },
            none)
  else some (d, h, none)

/-- Embedding of `pub fn handle_interrupt` (spi.rs lines 364-464): the
receive phase, then the transmit phase, then the completion check. -/
def handle_interrupt (d : DriverState) (h : HwState) :
    Option (DriverState × HwState × Option CbEvent) :=
  match rx_phase d h with
  | none => none
  | some (d1, h1) =>
    match tx_phase d1 h1 with
    | none => none
    | some (d2, h2) => complete_phase d2 h2

/-- Hardware clocking between handler invocations: every byte in the
transmit FIFO is shifted out on the wire and a response byte (loopback)
enters the receive FIFO. -/
def hw_clock (h : HwState) : HwState :=
  { h with tx_fifo := [], rx_fifo := h.rx_fifo ++ h.tx_fifo,
           clocked := h.clocked ++ h.tx_fifo }

/-- Condition under which the kernel's interrupt dispatcher invokes the
driver's handler: some watermark source is both enabled and pending. -/
def pending_irq (h : HwState) : Bool :=
  (h.ie_rxwm && ip_rxwm h) || (h.ie_txwm && ip_txwm h)

/-- Whole system state: driver cells plus peripheral. -/
structure Sys where
  drv : DriverState
  hw : HwState
deriving DecidableEq

/-- Closed-system execution: repeatedly clock the hardware and, while an
enabled watermark interrupt is pending, run the handler, collecting the
completion callbacks fired; stops at quiescence (or when fuel runs out).
`none` models a panic inside the handler. -/
def spi_run : Nat → Sys → Option (Sys × List CbEvent)
  | 0, s => some (s, [])
  | fuel + 1, s =>
    let h := hw_clock s.hw
    if pending_irq h then
      match handle_interrupt s.drv h with
      | none => none
      | some (d1, h1, ev) =>
        match spi_run fuel ⟨d1, h1⟩ with
        | none => none
        | some (s2, evs) => some (s2, ev.toList ++ evs)
    else some (⟨s.drv, h⟩, [])

/-- The offsets invariant of the Transfer State. -/
def Inv (d : DriverState) : Prop :=
  d.rx_offset ≤ d.tx_offset ∧ d.tx_offset ≤ d.io_len

/-- Driver state right after `init` (or after a completed transaction)
with a registered client. -/
def idleDriver : DriverState :=
  ⟨false, none, none, 0, 0, 0, true⟩

/-- Same idle driver state but with no registered client. -/
def idleNoClient : DriverState :=
  ⟨false, none, none, 0, 0, 0, false⟩

/-- An idle driver state marked busy (for the error-path counterexamples). -/
def busyDriver : DriverState :=
  ⟨true, none, none, 0, 0, 0, true⟩

/-- A quiescent peripheral state: empty FIFOs, nothing clocked, reset
register values, both interrupt enables clear, HOLD framing. -/
def hw0 : HwState :=
  ⟨[], [], [], 0, 0, 0, 0, 0, false, false, true⟩

/-- The burst of bytes sitting in the transmit FIFO of an in-flight
transaction that has confirmed `r` bytes: `wbuf[r .. min(r+7, L))`,
masked to the 8-bit data field. -/
def burst (wbuf : List Nat) (L r : Nat) : List Nat :=
  ((wbuf.drop r).take (min (r + 7) L - r)).map (fun v => v % 256)

/-- Driver state of an in-flight transaction of length `L` over write
buffer `wbuf` and current receive-buffer contents `rbc`, observed right
after submission (`r = 0`) or right after a non-final `handle_interrupt`
(`r` bytes fully round-tripped): the transmit side is always
`min(r + 7, L)`. -/
def inflightDrv (wbuf rbc : List Nat) (L r : Nat) : DriverState :=
  ⟨true, some wbuf, some rbc, L, min (r + 7) L, r, true⟩

/-- Peripheral state matching `inflightDrv` at the same observation points:
the current burst is in the transmit FIFO, the receive FIFO is drained,
`rxmark` is programmed to fire once the whole burst has echoed back,
`txmark` is 1 and only the receive watermark interrupt is enabled. -/
def inflightHw (h : HwState) (wbuf : List Nat) (L r : Nat) : HwState :=
  { h with tx_fifo := burst wbuf L r,
           rx_fifo := [],
           rxmark := min (r + 7) L - r - 1,
           txmark := 1,
           ie_txwm := false,
           ie_rxwm := true }

/-- Concrete write-only submission used for claim C1. -/
def c1sub : RwResult × DriverState × HwState :=
  read_write_bytes idleDriver hw0 [1, 2, 3, 4] none 4

/-- Concrete write-only submission used for claim C3's counterexample. -/
def c3sub : RwResult × DriverState × HwState :=
  read_write_bytes idleDriver hw0 [5, 6, 7] none 3

/-- Concrete 8-byte full-duplex submission used for claim C6's
counterexample (first burst is 7 bytes, one byte remains). -/
def c6sub : RwResult × DriverState × HwState :=
  read_write_bytes idleDriver hw0 [1, 2, 3, 4, 5, 6, 7, 8]
    (some [0, 0, 0, 0, 0, 0, 0, 0]) 8

/-- Concrete submission with a zero-length read buffer used for claim C8's
counterexample. -/
def c8sub : RwResult × DriverState × HwState :=
  read_write_bytes idleDriver hw0 [9] (some []) 1

/-- Peripheral state after `set_phase(SampleTrailing)` on an idle driver. -/
def c9hw1 : HwState := (set_phase idleDriver hw0 .sampleTrailing).2

/-- Peripheral state after a subsequent `set_polarity(IdleHigh)`. -/
def c9hw2 : HwState := (set_polarity idleDriver c9hw1 .idleHigh).2

/-! ### Helper lemmas about the embedded primitives -/

/-- Wrapping `usize` subtraction agrees with `Nat` subtraction when it
does not underflow. -/
theorem wrapSub32_sub (x y : Nat) (hyx : y ≤ x) (hx : x < 4294967296) :
    wrapSub32 x y = x - y := by
  unfold wrapSub32
  omega

/-- A successful receive drain (buffer-saving variant) ends exactly at the
transmit offset and preserves the receive buffer's length. -/
theorem rx_drain_save_spec :
    ∀ (fifo : List Nat) (txo rxo : Nat) (rb : List Nat)
      (out : Nat × List Nat × List Nat),
      rx_drain_save txo rxo fifo rb = some out →
      out.1 = txo ∧ out.2.2.length = rb.length := by
  intro fifo
  induction fifo with
  | nil =>
    intro txo rxo rb out hout
    rw [rx_drain_save] at hout
    by_cases hxy : rxo = txo
    · rw [if_pos hxy] at hout
      cases hout
      exact ⟨hxy, rfl⟩
    · rw [if_neg hxy] at hout
      cases hout
  | cons v rest ih =>
    intro txo rxo rb out hout
    rw [rx_drain_save] at hout
    by_cases hxy : rxo = txo
    · rw [if_pos hxy] at hout
      cases hout
      exact ⟨hxy, rfl⟩
    · rw [if_neg hxy] at hout
      by_cases hlt : rxo < rb.length
      · rw [if_pos hlt] at hout
        have := ih txo (rxo + 1) (rb.set rxo v) out hout
        simpa using this
      · rw [if_neg hlt] at hout
        cases hout

/-- A successful receive drain (discarding variant) ends exactly at the
transmit offset. -/
theorem rx_drain_discard_spec :
    ∀ (fifo : List Nat) (txo rxo : Nat) (out : Nat × List Nat),
      rx_drain_discard txo rxo fifo = some out → out.1 = txo := by
  intro fifo
  induction fifo with
  | nil =>
    intro txo rxo out hout
    rw [rx_drain_discard] at hout
    by_cases hxy : rxo = txo
    · rw [if_pos hxy] at hout
      cases hout
      exact hxy
    · rw [if_neg hxy] at hout
      cases hout
  | cons v rest ih =>
    intro txo rxo out hout
    rw [rx_drain_discard] at hout
    by_cases hxy : rxo = txo
    · rw [if_pos hxy] at hout
      cases hout
      exact hxy
    · rw [if_neg hxy] at hout
      exact ih txo (rxo + 1) out hout

/-- When the FIFO holds exactly the bytes still missing and the receive
buffer is long enough, the saving drain succeeds, consumes the whole FIFO
and preserves the buffer length. -/
theorem rx_drain_save_complete :
    ∀ (fifo : List Nat) (txo rxo : Nat) (rb : List Nat),
      txo = rxo + fifo.length → txo ≤ rb.length →
      ∃ rb', rx_drain_save txo rxo fifo rb = some (txo, [], rb') ∧
        rb'.length = rb.length := by
  intro fifo
  induction fifo with
  | nil =>
    intro txo rxo rb htxo hle
    simp only [List.length_nil, Nat.add_zero] at htxo
    refine ⟨rb, ?_, rfl⟩
    rw [rx_drain_save, if_pos htxo.symm, htxo]
  | cons v rest ih =>
    intro txo rxo rb htxo hle
    simp only [List.length_cons] at htxo
    have hne : rxo ≠ txo := by omega
    have hlt : rxo < rb.length := by omega
    obtain ⟨rb', hrb', hlen⟩ :=
      ih txo (rxo + 1) (rb.set rxo v) (by omega)
        (by rw [List.length_set]; omega)
    refine ⟨rb', ?_, by rw [hlen, List.length_set]⟩
    rw [rx_drain_save, if_neg hne, if_pos hlt]
    exact hrb'

/-- When it fits, the transmit refill loop pushes exactly the given bytes
(masked to 8 bits) at the back of the FIFO. -/
theorem tx_push_append :
    ∀ (bytes fifo : List Nat), fifo.length + bytes.length ≤ 8 →
      tx_push bytes fifo = some (fifo ++ bytes.map (fun v => v % 256)) := by
  intro bytes
  induction bytes with
  | nil =>
    intro fifo _
    simp [tx_push]
  | cons b rest ih =>
    intro fifo hfit
    simp only [List.length_cons] at hfit
    rw [tx_push, if_pos (by omega),
      ih (fifo ++ [b % 256]) (by simp; omega)]
    simp

/-- The wrapped `tx_len - 1` with `tx_len = 0` masks to 7. -/
theorem wrapSub32_zero_one : wrapSub32 0 1 % 8 = 7 := by
  norm_num [wrapSub32]

/-- The wrapped `tx_len - 1` agrees with the exact value for
`1 ≤ tx_len ≤ 7`. -/
theorem wrapSub32_small (x : Nat) (h1 : 1 ≤ x) (h7 : x ≤ 7) :
    wrapSub32 x 1 % 8 = x - 1 := by
  rw [wrapSub32_sub x 1 h1 (by omega)]
  exact Nat.mod_eq_of_lt (by omega)

/-- Shape of an accepted submission without a read buffer: `Ok` is
returned, but `io_len = min(tx_len, 0) = 0`, no byte enters the transmit
FIFO, `rxmark` is programmed from the wrapped `0 - 1` (masking to 7), and
`rx_offset` keeps its previous value. -/
theorem read_write_bytes_none (d : DriverState) (h : HwState) (w : List Nat)
    (len : Nat) (hlen : 0 < min len w.length) (hbusy : d.busy = false) :
    read_write_bytes d h w none len =
      (.ok,
       { d with busy := true, io_len := 0, tx_offset := 0, tx_buf := some w },
       { h with rxmark := 7,
                txmark := if d.rx_offset = 0 then h.txmark else 1,
                ie_txwm := false, ie_rxwm := true }) := by
  rw [read_write_bytes.eq_def, if_neg (by omega), if_neg (by simp [hbusy])]
  by_cases hrx : d.rx_offset = 0
  · simp [hrx, wrapSub32_zero_one]
  · simp [hrx, wrapSub32_zero_one]

/-- Shape of an accepted submission with a read buffer `rbuf`:
`io_len = min(min(len, |w|), |rbuf|)`, the first `min(7, io_len)` bytes of
`w` enter the transmit FIFO, `rx_offset` is reset, `rxmark` is programmed
from the wrapped `min(7, io_len) - 1`, `txmark` is written to 1 exactly
when `io_len ≠ 0`, and only the receive watermark interrupt is enabled. -/
theorem read_write_bytes_some (d : DriverState) (h : HwState) (w rbuf : List Nat)
    (len : Nat) (hlen : 0 < min len w.length) (hbusy : d.busy = false) :
    read_write_bytes d h w (some rbuf) len =
      (.ok,
       { d with busy := true,
                io_len := min (min len w.length) rbuf.length,
                tx_offset := min 7 (min (min len w.length) rbuf.length),
                rx_offset := 0,
                tx_buf := some w, rx_buf := some rbuf },
       { h with tx_fifo := h.tx_fifo ++
                  (w.take (min 7 (min (min len w.length) rbuf.length))).map (fun v => v % 256),
                rxmark := wrapSub32 (min 7 (min (min len w.length) rbuf.length)) 1 % 8,
                txmark := if min (min len w.length) rbuf.length = 0 then h.txmark else 1,
                ie_txwm := false, ie_rxwm := true }) := by
  rw [read_write_bytes.eq_def, if_neg (by omega), if_neg (by simp [hbusy])]
  by_cases hL : min (min len w.length) rbuf.length = 0
  · simp [hL]
  · have hL1 : ¬(0 = min len (min w.length rbuf.length)) := by omega
    have hL2 : ¬(min len (min w.length rbuf.length) = 0) := by omega
    simp [hL, hL1, hL2]

/-- The double-wrapped `(end_offset - tx_offset - 1) as u32`, masked to 3
bits, agrees with the exact value when the burst is non-empty and at most
7 bytes. -/
theorem wrapSub32_mark (x y : Nat) (hxy : y < x) (hs : x - y ≤ 7) :
    wrapSub32 (wrapSub32 x y) 1 % 8 = x - y - 1 := by
  have h1 : wrapSub32 x y = x - y := by
    unfold wrapSub32
    omega
  rw [h1, wrapSub32_sub (x - y) 1 (by omega) (by omega)]
  exact Nat.mod_eq_of_lt (by omega)

/-- Wrapping subtraction of a number from itself. -/
theorem wrapSub32_self (x : Nat) : wrapSub32 x x = 0 := by
  unfold wrapSub32
  omega

/-- Length of the in-flight transmit burst. -/
theorem burst_length (wbuf : List Nat) (L r : Nat)
    (hw : L ≤ wbuf.length) (hr : r < L) :
    (burst wbuf L r).length = min (r + 7) L - r := by
  unfold burst
  simp only [List.length_map, List.length_take, List.length_drop]
  omega

/-- With both interrupt enables clear, `spi_run` is quiescent: it never
invokes the handler again, fires no callback and leaves the driver state
alone. -/
theorem spi_run_quiet (n : Nat) (d : DriverState) (h : HwState)
    (h1 : h.ie_txwm = false) (h2 : h.ie_rxwm = false) :
    ∃ h', spi_run n ⟨d, h⟩ = some (⟨d, h'⟩, []) := by
  cases n with
  | zero => exact ⟨h, rfl⟩
  | succ m =>
    refine ⟨hw_clock h, ?_⟩
    rw [spi_run]
    rw [if_neg ?_]
    simp only [pending_irq, hw_clock, h1, h2]
    simp

/-- An accepted submission with a read buffer, from the idle driver and a
quiescent peripheral, lands exactly in the in-flight shape with zero bytes
confirmed. -/
theorem submit_inflight (h : HwState) (wbuf rbuf : List Nat) (len : Nat)
    (htx : h.tx_fifo = []) (hrx : h.rx_fifo = [])
    (hL : 1 ≤ min (min len wbuf.length) rbuf.length) :
    read_write_bytes idleDriver h wbuf (some rbuf) len =
      (.ok, inflightDrv wbuf rbuf (min (min len wbuf.length) rbuf.length) 0,
            inflightHw h wbuf (min (min len wbuf.length) rbuf.length) 0) := by
  rw [read_write_bytes_some idleDriver h wbuf rbuf len (by omega) rfl]
  have hrxm := wrapSub32_small (min 7 (min (min len wbuf.length) rbuf.length))
    (by omega) (by omega)
  have hL0 : ¬(min (min len wbuf.length) rbuf.length = 0) := by omega
  unfold inflightDrv inflightHw burst
  simp only [Prod.mk.injEq]
  refine ⟨trivial, ?_, ?_⟩
  · simp [idleDriver]
  · rw [htx, hrx, if_neg hL0, hrxm]
    simp

/-- One clock-and-interrupt step of an in-flight transaction that still
has bytes to send after this round trip (`r + 7 < L`): the pending receive
watermark fires, the handler drains the 7-byte burst, refills the FIFO
with the next burst, and the system is again in the in-flight shape with
`r + 7` bytes confirmed and no callback fired. -/
theorem step_inflight_mid (h : HwState) (wbuf rbc : List Nat) (L r : Nat)
    (hr7 : r + 7 < L) (hw : L ≤ wbuf.length) (hrb : L ≤ rbc.length) :
    pending_irq (hw_clock (inflightHw h wbuf L r)) = true ∧
    ∃ rb', rb'.length = rbc.length ∧
      handle_interrupt (inflightDrv wbuf rbc L r) (hw_clock (inflightHw h wbuf L r)) =
        some (inflightDrv wbuf rb' L (r + 7),
              inflightHw { h with clocked := h.clocked ++ burst wbuf L r } wbuf L (r + 7),
              none) := by
  have hmin : min (r + 7) L = r + 7 := by omega
  have hblen : (burst wbuf L r).length = 7 := by
    rw [burst_length wbuf L r hw (by omega)]
    omega
  have hclock : hw_clock (inflightHw h wbuf L r) =
      { h with tx_fifo := [], rx_fifo := burst wbuf L r,
               clocked := h.clocked ++ burst wbuf L r,
               rxmark := min (r + 7) L - r - 1, txmark := 1,
               ie_txwm := false, ie_rxwm := true } := rfl
  obtain ⟨rb', hdrain, hrblen⟩ := rx_drain_save_complete (burst wbuf L r)
    (min (r + 7) L) r rbc (by rw [hblen]; omega) (by omega)
  have hip : ip_rxwm
      ({ h with tx_fifo := [], rx_fifo := burst wbuf L r,
                clocked := h.clocked ++ burst wbuf L r,
                rxmark := min (r + 7) L - r - 1, txmark := 1,
                ie_txwm := false, ie_rxwm := true } : HwState) = true := by
    simp only [ip_rxwm, hblen, decide_eq_true_eq]
    omega
  have hpush := tx_push_append
    ((wbuf.drop (min (r + 7) L)).take (min (min (r + 7) L + 7) L - min (r + 7) L)) []
    (by simp only [List.length_nil, List.length_take, List.length_drop, Nat.zero_add]; omega)
  constructor
  · rw [hclock]
    simp only [pending_irq, ip_txwm, hip, Bool.true_and, Bool.false_and, Bool.or_false]
  · refine ⟨rb', hrblen, ?_⟩
    rw [hclock]
    unfold handle_interrupt
    unfold rx_phase
    rw [if_pos hip]
    dsimp only [inflightDrv]
    rw [hdrain]
    dsimp only
    simp only [List.length_nil, reduceIte]
    rw [if_pos (show min (r + 7) L ≠ L by omega)]
    try dsimp only
    unfold tx_phase
    rw [if_pos (show ip_txwm
        ({ h with tx_fifo := [], rx_fifo := [],
                  clocked := h.clocked ++ burst wbuf L r,
                  rxmark := min (r + 7) L - r - 1, txmark := 1,
                  ie_txwm := true, ie_rxwm := false } : HwState) = true from rfl)]
    try dsimp only
    rw [if_pos (show min (r + 7) L ≤ min (min (r + 7) L + 7) L ∧
          min (min (r + 7) L + 7) L ≤ wbuf.length by omega)]
    rw [hpush]
    try dsimp only
    unfold complete_phase
    rw [if_neg (show ¬(min (min (r + 7) L + 7) L = L ∧ min (r + 7) L = L) by omega)]
    unfold inflightHw burst
    rw [hmin]
    rw [wrapSub32_mark (min (r + 7 + 7) L) (r + 7) (by omega) (by omega)]
    simp

/-- The final clock-and-interrupt step of an in-flight transaction
(`r < L ≤ r + 7`): the handler drains the last burst, the transmit phase
is entered once more with nothing left to push (here `end_offset -
tx_offset - 1` wraps and programs `rxmark = 7`), the completion condition
holds, the single callback fires with the write buffer, the filled read
buffer and `io_len = L`, and the driver returns to the idle state with
both interrupt enables cleared. -/
theorem step_inflight_last (h : HwState) (wbuf rbc : List Nat) (L r : Nat)
    (hr : r < L) (hr7 : L ≤ r + 7) (hw : L ≤ wbuf.length) (hrb : L ≤ rbc.length) :
    pending_irq (hw_clock (inflightHw h wbuf L r)) = true ∧
    ∃ rb', rb'.length = rbc.length ∧
      handle_interrupt (inflightDrv wbuf rbc L r) (hw_clock (inflightHw h wbuf L r)) =
        some (idleDriver,
              { h with tx_fifo := [], rx_fifo := [],
                       clocked := h.clocked ++ burst wbuf L r,
                       rxmark := 7, txmark := 1,
                       ie_txwm := false, ie_rxwm := false, csmode_hold := true },
              some (CbEvent.mk wbuf (some rb') L)) := by
  have hmin : min (r + 7) L = L := by omega
  have hblen : (burst wbuf L r).length = L - r := by
    rw [burst_length wbuf L r hw (by omega)]
    omega
  have hclock : hw_clock (inflightHw h wbuf L r) =
      { h with tx_fifo := [], rx_fifo := burst wbuf L r,
               clocked := h.clocked ++ burst wbuf L r,
               rxmark := min (r + 7) L - r - 1, txmark := 1,
               ie_txwm := false, ie_rxwm := true } := rfl
  obtain ⟨rb', hdrain, hrblen⟩ := rx_drain_save_complete (burst wbuf L r)
    (min (r + 7) L) r rbc (by rw [hblen]; omega) (by omega)
  have hip : ip_rxwm
      ({ h with tx_fifo := [], rx_fifo := burst wbuf L r,
                clocked := h.clocked ++ burst wbuf L r,
                rxmark := min (r + 7) L - r - 1, txmark := 1,
                ie_txwm := false, ie_rxwm := true } : HwState) = true := by
    simp only [ip_rxwm, hblen, decide_eq_true_eq]
    omega
  have hpush := tx_push_append
    ((wbuf.drop (min (r + 7) L)).take (min (min (r + 7) L + 7) L - min (r + 7) L)) []
    (by simp only [List.length_nil, List.length_take, List.length_drop, Nat.zero_add]; omega)
  constructor
  · rw [hclock]
    simp only [pending_irq, ip_txwm, hip, Bool.true_and, Bool.false_and, Bool.or_false]
  · refine ⟨rb', hrblen, ?_⟩
    rw [hclock]
    unfold handle_interrupt
    unfold rx_phase
    rw [if_pos hip]
    dsimp only [inflightDrv]
    rw [hdrain]
    dsimp only
    simp only [List.length_nil, reduceIte]
    rw [if_neg (show ¬(min (r + 7) L ≠ L) by omega)]
    try dsimp only
    unfold tx_phase
    rw [if_pos (show ip_txwm
        ({ h with tx_fifo := [], rx_fifo := [],
                  clocked := h.clocked ++ burst wbuf L r,
                  rxmark := min (r + 7) L - r - 1, txmark := 1,
                  ie_txwm := false, ie_rxwm := true } : HwState) = true from rfl)]
    try dsimp only
    rw [if_pos (show min (r + 7) L ≤ min (min (r + 7) L + 7) L ∧
          min (min (r + 7) L + 7) L ≤ wbuf.length by omega)]
    rw [hpush]
    try dsimp only
    unfold complete_phase
    rw [if_pos (show min (min (r + 7) L + 7) L = L ∧ min (r + 7) L = L by
          constructor <;> omega)]
    simp only [reduceIte]
    try dsimp only
    unfold idleDriver
    rw [hmin]
    rw [show min (L + 7) L = L by omega]
    rw [wrapSub32_self, wrapSub32_zero_one]
    simp

/-- From any in-flight shape with `r < L` bytes confirmed and enough fuel,
the closed system runs to completion: exactly one callback event is
emitted, carrying the original write buffer, a filled read buffer of the
original length and `io_len = L`, and the driver ends in the idle state. -/
theorem spi_run_inflight :
    ∀ (fuel r : Nat) (rbc : List Nat) (h : HwState) (wbuf : List Nat) (L : Nat),
      r < L → L ≤ wbuf.length → L ≤ rbc.length → L ≤ r + 7 * fuel →
      ∃ hEnd rb',
        spi_run fuel ⟨inflightDrv wbuf rbc L r, inflightHw h wbuf L r⟩ =
          some (⟨idleDriver, hEnd⟩, [CbEvent.mk wbuf (some rb') L]) ∧
        rb'.length = rbc.length := by
  intro fuel
  induction fuel with
  | zero =>
    intro r rbc h wbuf L hr _ _ hfuel
    omega
  | succ n ih =>
    intro r rbc h wbuf L hr hwlen hrblen hfuel
    by_cases hlast : L ≤ r + 7
    · obtain ⟨hpend, rb', hrblen', hstep⟩ :=
        step_inflight_last h wbuf rbc L r hr hlast hwlen hrblen

      obtain ⟨h2, hq⟩ := spi_run_quiet n idleDriver
        ({ h with tx_fifo := [], rx_fifo := [],
                  clocked := h.clocked ++ burst wbuf L r,
                  rxmark := 7, txmark := 1,
                  ie_txwm := false, ie_rxwm := false, csmode_hold := true }) rfl rfl
      refine ⟨h2, rb', ?_, hrblen'⟩
      simp only [spi_run]
      rw [if_pos hpend, hstep]
      try dsimp only
      rw [hq]
      simp
    · have hmid : r + 7 < L := by omega
      obtain ⟨hpend, rb', hrblen', hstep⟩ :=
        step_inflight_mid h wbuf rbc L r hmid hwlen hrblen
      obtain ⟨hEnd, rb'', hrun, hrblen''⟩ :=
        ih (r + 7) rb' { h with clocked := h.clocked ++ burst wbuf L r } wbuf L
          (by omega) hwlen (by omega) (by omega)
      refine ⟨hEnd, rb'', ?_, by omega⟩
      simp only [spi_run]
      rw [if_pos hpend, hstep]
      try dsimp only
      rw [hrun]
      simp

/-! ### Claim C1 -/

/-- Claim C1 (code divergence): a write-only submission
(`write_buffer = [1,2,3,4]`, no read buffer, `len = 4`) is accepted
(`Ok` is returned and `busy` is set), but because the source computes
`rx_len = 0` for an absent read buffer, `io_len = min(4, 0) = 0` — not
`tx_len = 4` as the claim states.  No byte is ever pushed into the
transmit FIFO, nothing is clocked out on the wire, no enabled watermark
interrupt can become pending, and the system sits in a fixpoint of
`spi_run` with `busy = true` and no callback — instead of completing with
`io_len == 4`. -/
theorem c1_write_only_stuck :
    c1sub.1 = .ok ∧
    c1sub.2.1.busy = true ∧
    c1sub.2.1.io_len = 0 ∧
    c1sub.2.2.tx_fifo = [] ∧
    pending_irq (hw_clock c1sub.2.2) = false ∧
    spi_run 8 ⟨c1sub.2.1, c1sub.2.2⟩ = some (⟨c1sub.2.1, c1sub.2.2⟩, []) ∧
    (hw_clock c1sub.2.2).clocked = [] := by
  decide

/-! ### Claim C3 -/

/-- Claim C3 (counterexample): a write-only submission (`[5,6,7]`, no read
buffer) is accepted, yet NO completion callback ever fires: `io_len` is
set to 0, nothing is enqueued, no enabled interrupt is pending after
clocking, and the closed system is a fixpoint of `spi_run` with
`busy = true` and an empty event list — so "exactly one completion
callback fires per accepted transaction" is false for this accepted
transaction. -/
theorem c3_write_only_no_callback :
    c3sub.1 = .ok ∧
    c3sub.2.1.busy = true ∧
    pending_irq (hw_clock c3sub.2.2) = false ∧
    spi_run 9 ⟨c3sub.2.1, c3sub.2.2⟩ = some (⟨c3sub.2.1, c3sub.2.2⟩, []) := by
  decide

/-- Claim C3 (amended): for every transaction accepted with a supplied
NON-EMPTY read buffer (so `io_len = min(min(len, |write_buffer|),
|read_buffer|) ≥ 1`), with a registered client, exactly one completion
callback fires over the whole closed-system run — carrying back the write
buffer, a read buffer of the original length and `io_len` — and afterwards
`io_len = rx_offset = tx_offset = 0` and `busy = false`, i.e. the driver
is back in its initial idle state.  (Accepted write-only or
zero-read-buffer transactions never complete: see the counterexample.) -/
theorem c3_exactly_one_callback (h : HwState) (wbuf rbuf : List Nat)
    (len fuel : Nat) (htx : h.tx_fifo = []) (hrx : h.rx_fifo = [])
    (hL : 1 ≤ min (min len wbuf.length) rbuf.length)
    (hfuel : min (min len wbuf.length) rbuf.length ≤ 7 * fuel) :
    ∃ d1 h1 hEnd rb',
      read_write_bytes idleDriver h wbuf (some rbuf) len = (.ok, d1, h1) ∧
      spi_run fuel ⟨d1, h1⟩ =
        some (⟨idleDriver, hEnd⟩,
              [CbEvent.mk wbuf (some rb') (min (min len wbuf.length) rbuf.length)]) ∧
      rb'.length = rbuf.length := by
  obtain ⟨hEnd, rb', hrun, hlen⟩ := spi_run_inflight fuel 0 rbuf h wbuf
    (min (min len wbuf.length) rbuf.length) (by omega) (by omega) (by omega) (by omega)
  exact ⟨_, _, hEnd, rb',
    submit_inflight h wbuf rbuf len htx hrx hL, hrun, hlen⟩

/-- Claim C3 (witness): the amended statement at a concrete 2-byte
round-trip with fuel 1. -/
theorem c3_exactly_one_callback_w :
    ∃ d1 h1 hEnd rb',
      read_write_bytes idleDriver hw0 [1, 2] (some [0, 0]) 2 = (.ok, d1, h1) ∧
      spi_run 1 ⟨d1, h1⟩ =
        some (⟨idleDriver, hEnd⟩,
              [CbEvent.mk [1, 2] (some rb')
                (min (min 2 ([1, 2] : List Nat).length) ([0, 0] : List Nat).length)]) ∧
      rb'.length = ([0, 0] : List Nat).length :=
  c3_exactly_one_callback hw0 [1, 2] [0, 0] 2 1 rfl rfl (by decide) (by decide)

/-! ### Claim C4 -/

/-- Claim C4 (counterexample): a submission made while `busy == true` with
a zero-length write buffer yields `InvalidArgument`, not `Busy` — the
zero-length check precedes the busy check in the source, so "submitting
while busy always yields Busy" is false. -/
theorem c4_busy_zero_len_not_busy_error :
    read_write_bytes busyDriver hw0 [] none 0 =
      (.err .INVAL [] none, busyDriver, hw0) ∧
    (RwResult.err .INVAL [] none) ≠ (RwResult.err .BUSY [] none) := by
  decide

/-- Claim C4 (amended): if the effective length `min(len, |write_buffer|)`
is zero, the submission yields `InvalidArgument` with both buffers
returned and no state altered, regardless of `busy`; if the effective
length is positive and the driver is busy, it yields `Busy` with both
buffers returned and no state altered. -/
theorem c4_error_paths (d : DriverState) (h : HwState) (w : List Nat)
    (rb : Option (List Nat)) (len : Nat) :
    (min len w.length = 0 →
      read_write_bytes d h w rb len = (.err .INVAL w rb, d, h)) ∧
    (0 < min len w.length → d.busy = true →
      read_write_bytes d h w rb len = (.err .BUSY w rb, d, h)) := by
  constructor
  · intro h0
    rw [read_write_bytes.eq_def, if_pos h0]
  · intro h1 hb
    rw [read_write_bytes.eq_def, if_neg (by omega), if_pos hb]

/-- Claim C4 (witness): both amended branches at concrete inputs. -/
theorem c4_error_paths_w :
    read_write_bytes idleDriver hw0 [] (some [1]) 5 =
      (.err .INVAL [] (some [1]), idleDriver, hw0) ∧
    read_write_bytes busyDriver hw0 [2, 3] none 2 =
      (.err .BUSY [2, 3] none, busyDriver, hw0) :=
  ⟨(c4_error_paths idleDriver hw0 [] (some [1]) 5).1 (by decide),
   (c4_error_paths busyDriver hw0 [2, 3] none 2).2 (by decide) rfl⟩

/-! ### Claim C5 -/

/-- Claim C5: `set_rate(hz)` fails with `InvalidArgument` for every
`hz < 1954` and every `hz > 8_000_000` (leaving all state untouched),
fails with `Busy` for in-range rates while a transfer is in flight, and
for every in-range `hz` while not busy programs
`sckdiv = floor(8_000_000 / hz) - 1` (which always fits the 12-bit field,
so no masking occurs) and returns `Ok` with exactly the requested rate. -/
theorem c5_set_rate (d : DriverState) (h : HwState) (hz : Nat) :
    (hz < 1954 ∨ 8000000 < hz → set_rate d h hz = (.err .INVAL, h)) ∧
    (1954 ≤ hz → hz ≤ 8000000 → d.busy = true →
      set_rate d h hz = (.err .BUSY, h)) ∧
    (1954 ≤ hz → hz ≤ 8000000 → d.busy = false →
      set_rate d h hz = (.ok hz, { h with sckdiv := 8000000 / hz - 1 })) := by
  refine ⟨?_, ?_, ?_⟩
  · intro hr
    rw [set_rate.eq_def, if_pos hr]
  · intro h1 h2 hb
    rw [set_rate.eq_def, if_neg (by omega), if_pos hb]
  · intro h1 h2 hb
    rw [set_rate.eq_def, if_neg (by omega), if_neg (by simp [hb])]
    have hdle : 8000000 / hz ≤ 8000000 / 1954 :=
      Nat.div_le_div_left h1 (by norm_num)
    have h4094 : 8000000 / 1954 = 4094 := by norm_num
    have hlt : 8000000 / hz - 1 < 4096 := by omega
    simp only [Nat.mod_eq_of_lt hlt]

/-- Claim C5 (witness): the boundary rates 1954 and 8_000_000 succeed,
1953 and 8_000_001 fail with `InvalidArgument`, and an in-range rate
fails with `Busy` while a transfer is in flight. -/
theorem c5_set_rate_w :
    set_rate idleDriver hw0 1953 = (.err .INVAL, hw0) ∧
    set_rate idleDriver hw0 8000001 = (.err .INVAL, hw0) ∧
    set_rate busyDriver hw0 2000 = (.err .BUSY, hw0) ∧
    set_rate idleDriver hw0 1954 = (.ok 1954, { hw0 with sckdiv := 8000000 / 1954 - 1 }) ∧
    set_rate idleDriver hw0 8000000 = (.ok 8000000, { hw0 with sckdiv := 8000000 / 8000000 - 1 }) :=
  ⟨(c5_set_rate idleDriver hw0 1953).1 (by omega),
   (c5_set_rate idleDriver hw0 8000001).1 (by omega),
   (c5_set_rate busyDriver hw0 2000).2.1 (by omega) (by omega) rfl,
   (c5_set_rate idleDriver hw0 1954).2.2 (by omega) (by omega) rfl,
   (c5_set_rate idleDriver hw0 8000000).2.2 (by omega) (by omega) rfl⟩

/-! ### Claim C6 -/

/-- Claim C6 (counterexample): an accepted 8-byte full-duplex submission
leaves `tx_offset = 7 < 8 = io_len` (a byte remains beyond the first
burst), yet the transmit-watermark interrupt is NOT enabled: the
submission path always ends with `ie.modify(txwm::CLEAR + rxwm::SET)`. -/
theorem c6_first_burst_txwm_disabled :
    c6sub.1 = .ok ∧
    c6sub.2.1.tx_offset < c6sub.2.1.io_len ∧
    c6sub.2.2.ie_txwm = false := by
  decide

/-- Claim C6 (amended): an accepted submission always leaves the
transmit-watermark interrupt disabled and the receive-watermark interrupt
enabled, regardless of how many bytes remain beyond the first burst; what
the submission arms conditionally is the transmit watermark THRESHOLD
(`txmark := 1`, fire on empty FIFO), written exactly when
`rx_offset ≠ io_len` at that point (the transmit-watermark enable is only
set later by `handle_interrupt`, once the receive side has caught up with
`tx_offset ≠ io_len`). -/
theorem c6_submission_irq (d : DriverState) (h : HwState) (w : List Nat)
    (rb : Option (List Nat)) (len : Nat)
    (hlen : 0 < min len w.length) (hbusy : d.busy = false) :
    (read_write_bytes d h w rb len).2.2.ie_txwm = false ∧
    (read_write_bytes d h w rb len).2.2.ie_rxwm = true ∧
    ((read_write_bytes d h w rb len).2.1.rx_offset ≠
        (read_write_bytes d h w rb len).2.1.io_len →
      (read_write_bytes d h w rb len).2.2.txmark = 1) ∧
    ((read_write_bytes d h w rb len).2.1.rx_offset =
        (read_write_bytes d h w rb len).2.1.io_len →
      (read_write_bytes d h w rb len).2.2.txmark = h.txmark) := by
  cases rb with
  | none =>
    rw [read_write_bytes_none d h w len hlen hbusy]
    by_cases hrx : d.rx_offset = 0
    · simp [hrx]
    · simp [hrx]
  | some rbuf =>
    rw [read_write_bytes_some d h w rbuf len hlen hbusy]
    by_cases hL : min (min len w.length) rbuf.length = 0
    · refine ⟨rfl, rfl, ?_, ?_⟩
      · intro hne
        exact absurd (show (0 : Nat) = min (min len w.length) rbuf.length by omega) hne
      · intro _
        show (if min (min len w.length) rbuf.length = 0 then h.txmark else 1) = h.txmark
        rw [if_pos hL]
    · refine ⟨rfl, rfl, ?_, ?_⟩
      · intro _
        show (if min (min len w.length) rbuf.length = 0 then h.txmark else 1) = 1
        rw [if_neg hL]
      · intro heq
        have heq2 : (0 : Nat) = min (min len w.length) rbuf.length := heq
        omega

/-- Claim C6 (witness): the amended statement at a concrete submission
(3-byte transfer: the threshold is written, the enable stays clear). -/
theorem c6_submission_irq_w :
    (read_write_bytes idleDriver hw0 [1, 2, 3] (some [0, 0, 0]) 3).2.2.ie_txwm = false ∧
    (read_write_bytes idleDriver hw0 [1, 2, 3] (some [0, 0, 0]) 3).2.2.ie_rxwm = true ∧
    (read_write_bytes idleDriver hw0 [1, 2, 3] (some [0, 0, 0]) 3).2.2.txmark = 1 := by
  have hc := c6_submission_irq idleDriver hw0 [1, 2, 3] (some [0, 0, 0]) 3
    (by decide) rfl
  exact ⟨hc.1, hc.2.1, hc.2.2.1 (by decide)⟩

/-! ### Claim C8 -/

/-- Claim C8 (counterexample): an accepted submission whose read buffer
has length 0 evaluates the `rxmark` threshold `(tx_len - 1) as u32` with
`tx_len = min(7, io_len) = 0`: the subtraction underflows and, wrapped and
masked, programs `rxmark = 7` — refuting "no arithmetic underflow"
(under checked arithmetic this very subtraction would panic instead). -/
theorem c8_zero_read_buffer_underflow :
    c8sub.1 = .ok ∧
    c8sub.2.1.io_len = 0 ∧
    min 7 c8sub.2.1.io_len = 0 ∧
    c8sub.2.2.rxmark = 7 := by
  decide

/-- Claim C8 (amended): every submission with positive effective write
length on a non-busy driver returns `Ok(())`; when the resulting
`io_len` is positive the `rxmark` computation does not underflow and
programs `min(7, io_len) - 1`, but when `io_len = 0` (no read buffer, or a
zero-length one) the subtraction `tx_len - 1` underflows and the wrapped,
3-bit-masked value 7 is programmed. -/
theorem c8_accept_rxmark (d : DriverState) (h : HwState) (w : List Nat)
    (rb : Option (List Nat)) (len : Nat)
    (hlen : 0 < min len w.length) (hbusy : d.busy = false) :
    (read_write_bytes d h w rb len).1 = .ok ∧
    (0 < (read_write_bytes d h w rb len).2.1.io_len →
      (read_write_bytes d h w rb len).2.2.rxmark =
        min 7 (read_write_bytes d h w rb len).2.1.io_len - 1) ∧
    ((read_write_bytes d h w rb len).2.1.io_len = 0 →
      (read_write_bytes d h w rb len).2.2.rxmark = 7) := by
  cases rb with
  | none =>
    rw [read_write_bytes_none d h w len hlen hbusy]
    refine ⟨rfl, ?_, ?_⟩
    · intro hpos
      simp at hpos
    · intro _
      rfl
  | some rbuf =>
    rw [read_write_bytes_some d h w rbuf len hlen hbusy]
    refine ⟨rfl, ?_, ?_⟩
    · intro hpos
      simp only at hpos ⊢
      exact wrapSub32_small _ (by omega) (by omega)
    · intro hzero
      simp only at hzero ⊢
      rw [hzero]
      simpa using wrapSub32_zero_one

/-- Claim C8 (witness): the amended statement at a concrete 2-byte
submission with a 3-byte read buffer. -/
theorem c8_accept_rxmark_w :
    (read_write_bytes idleDriver hw0 [1, 2] (some [0, 0, 0]) 2).1 = .ok ∧
    (read_write_bytes idleDriver hw0 [1, 2] (some [0, 0, 0]) 2).2.2.rxmark =
      min 7 (read_write_bytes idleDriver hw0 [1, 2] (some [0, 0, 0]) 2).2.1.io_len - 1 := by
  have hc := c8_accept_rxmark idleDriver hw0 [1, 2] (some [0, 0, 0]) 2
    (by decide) rfl
  exact ⟨hc.1, hc.2.1 (by decide)⟩

/-! ### Claim C2 -/

/-- The receive phase of the handler preserves the offsets invariant: it
only raises `rx_offset` exactly to `tx_offset`. -/
theorem rx_phase_inv (d : DriverState) (h : HwState) (out : DriverState × HwState)
    (hinv : Inv d) (heq : rx_phase d h = some out) : Inv out.1 := by
  obtain ⟨hi1, hi2⟩ := hinv
  unfold rx_phase at heq
  split at heq
  · split at heq
    · split at heq
      · exact Option.noConfusion heq
      · rename_i rxo fifo hdr
        injection heq with heq2
        have hrxo : rxo = d.tx_offset :=
          rx_drain_discard_spec h.rx_fifo d.tx_offset d.rx_offset (rxo, fifo) hdr
        rw [← heq2]
        exact ⟨by simpa using Nat.le_of_eq hrxo, hi2⟩
    · split at heq
      · exact Option.noConfusion heq
      · rename_i rxo fifo rb hdr
        split at heq
        · injection heq with heq2
          have hrxo : rxo = d.tx_offset :=
            (rx_drain_save_spec h.rx_fifo d.tx_offset d.rx_offset _ (rxo, fifo, rb) hdr).1
          rw [← heq2]
          exact ⟨by simpa using Nat.le_of_eq hrxo, hi2⟩
        · exact Option.noConfusion heq
  · injection heq with heq2
    rw [← heq2]
    exact ⟨hi1, hi2⟩

/-- The transmit phase of the handler preserves the offsets invariant: it
only raises `tx_offset` to `min(tx_offset + 7, io_len)`. -/
theorem tx_phase_inv (d : DriverState) (h : HwState) (out : DriverState × HwState)
    (hinv : Inv d) (heq : tx_phase d h = some out) : Inv out.1 := by
  obtain ⟨hi1, hi2⟩ := hinv
  unfold tx_phase at heq
  split at heq
  · split at heq
    · injection heq with heq2
      rw [← heq2]
      exact ⟨hi1, hi2⟩
    · split at heq
      · split at heq
        · exact Option.noConfusion heq
        · injection heq with heq2
          rw [← heq2]
          exact ⟨show d.rx_offset ≤ min (d.tx_offset + 7) d.io_len by omega,
                 show min (d.tx_offset + 7) d.io_len ≤ d.io_len by omega⟩
      · exact Option.noConfusion heq
  · injection heq with heq2
    rw [← heq2]
    exact ⟨hi1, hi2⟩

/-- The completion check of the handler preserves the offsets invariant:
it either resets all three counters or leaves the driver state alone. -/
theorem complete_phase_inv (d : DriverState) (h : HwState)
    (out : DriverState × HwState × Option CbEvent)
    (hinv : Inv d) (heq : complete_phase d h = some out) : Inv out.1 := by
  unfold complete_phase at heq
  split at heq
  · split at heq
    · split at heq
      · exact Option.noConfusion heq
      · injection heq with heq2
        rw [← heq2]
        exact ⟨Nat.le_refl 0, Nat.le_refl 0⟩
    · injection heq with heq2
      rw [← heq2]
      exact ⟨Nat.le_refl 0, Nat.le_refl 0⟩
  · injection heq with heq2
    rw [← heq2]
    exact hinv

/-- Claim C2: the Transfer State invariant `0 ≤ rx_offset ≤ tx_offset ≤
io_len` holds at every observation point of an accepted transaction's
lifetime, as an inductive invariant: `init` establishes it (together with
`rx_offset = 0`, the precondition of submission — completion re-establishes
the same, see claim C3's theorem); an accepted submission from any state
with `rx_offset = 0` establishes it; and every non-panicking
`handle_interrupt` preserves it, for arbitrary peripheral states.
(`0 ≤ rx_offset` is trivial over `Nat`.) -/
theorem c2_offsets_invariant :
    (∀ (d : DriverState) (h : HwState),
      Inv (init d h).1 ∧ (init d h).1.rx_offset = 0) ∧
    (∀ (d : DriverState) (h : HwState) (w : List Nat) (rb : Option (List Nat))
      (len : Nat), d.rx_offset = 0 → 0 < min len w.length → d.busy = false →
      Inv (read_write_bytes d h w rb len).2.1) ∧
    (∀ (d : DriverState) (h : HwState) (out : DriverState × HwState × Option CbEvent),
      Inv d → handle_interrupt d h = some out → Inv out.1) := by
  refine ⟨?_, ?_, ?_⟩
  · intro d h
    exact ⟨⟨Nat.le_refl 0, Nat.le_refl 0⟩, rfl⟩
  · intro d h w rb len hrx0 hlen hbusy
    cases rb with
    | none =>
      rw [read_write_bytes_none d h w len hlen hbusy]
      exact ⟨by simp [hrx0], by simp⟩
    | some rbuf =>
      rw [read_write_bytes_some d h w rbuf len hlen hbusy]
      exact ⟨by simp, by simp⟩
  · intro d h out hinv heq
    unfold handle_interrupt at heq
    cases hr : rx_phase d h with
    | none =>
      rw [hr] at heq
      exact Option.noConfusion heq
    | some r1 =>
      obtain ⟨d1, h1⟩ := r1
      rw [hr] at heq
      dsimp only at heq
      have hinv1 := rx_phase_inv d h (d1, h1) hinv hr
      cases ht : tx_phase d1 h1 with
      | none =>
        rw [ht] at heq
        exact Option.noConfusion heq
      | some r2 =>
        obtain ⟨d2, h2⟩ := r2
        rw [ht] at heq
        dsimp only at heq
        have hinv2 := tx_phase_inv d1 h1 (d2, h2) hinv1 ht
        exact complete_phase_inv d2 h2 out hinv2 heq

/-- Claim C2 (witness): the invariant-establishing and -preserving parts
at concrete inputs — a 3-byte submission with a 2-byte read buffer, and a
spurious handler invocation on an idle clientless driver. -/
theorem c2_offsets_invariant_w :
    Inv (read_write_bytes idleDriver hw0 [1, 2, 3] (some [0, 0]) 3).2.1 ∧
    Inv idleNoClient :=
  ⟨c2_offsets_invariant.2.1 idleDriver hw0 [1, 2, 3] (some [0, 0]) 3 rfl
      (by decide) rfl,
   c2_offsets_invariant.2.2 idleNoClient hw0
     (idleNoClient,
      { hw0 with csmode_hold := true, ie_txwm := false, ie_rxwm := false },
      none)
     ⟨Nat.le_refl 0, Nat.le_refl 0⟩ (by decide)⟩

/-! ### Claim C7 -/

/-- Claim C7: `get_rate` recovers `8_000_000 / (sckdiv + 1)` from the
programmed divisor, and after a successful `set_rate(1_000_000)` while not
busy, `get_rate` returns a value at most 1_000_000 (here exactly
1_000_000), consistent with floor-division rounding. -/
theorem c7_get_rate :
    (∀ h : HwState, get_rate h = 8000000 / (h.sckdiv + 1)) ∧
    (∀ (d : DriverState) (h : HwState), d.busy = false →
      get_rate (set_rate d h 1000000).2 ≤ 1000000) := by
  constructor
  · intro h
    rfl
  · intro d h hb
    rw [set_rate.eq_def, if_neg (by omega), if_neg (by simp [hb])]
    norm_num [get_rate]

/-- Claim C7 (witness): the busy-free branch at a concrete state. -/
theorem c7_get_rate_w : get_rate (set_rate idleDriver hw0 1000000).2 ≤ 1000000 :=
  c7_get_rate.2 idleDriver hw0 rfl

/-! ### Claim C9 -/

/-- Claim C9 (counterexample): `set_polarity` and `set_phase` perform
whole-register writes of `sckmode`, so they do not leave the other field
unchanged: after `set_phase(SampleTrailing)` then `set_polarity(IdleHigh)`
the configured phase has been reset to `SampleLeading`. -/
theorem c9_set_polarity_clobbers_phase :
    get_phase c9hw1 = some .sampleTrailing ∧
    get_polarity c9hw2 = some .idleHigh ∧
    get_phase c9hw2 = some .sampleLeading ∧
    get_phase c9hw2 ≠ get_phase c9hw1 := by
  decide

/-- Claim C9 (amended): while not busy, `set_polarity(p)` succeeds and a
subsequent `get_polarity()` returns `p`, but the `pha` field is reset to 0
(`SampleLeading`); symmetrically `set_phase(ph)` succeeds, `get_phase()`
returns `ph`, but the `pol` field is reset to 0 (`IdleLow`) — each setter
overwrites the whole shared `sckmode` register. -/
theorem c9_mode_setters (d : DriverState) (h : HwState) (hb : d.busy = false) :
    (∀ p : ClockPolarity,
      (set_polarity d h p).1 = .ok ∧
      get_polarity (set_polarity d h p).2 = some p ∧
      (set_polarity d h p).2.sckmode_pha = 0) ∧
    (∀ q : ClockPhase,
      (set_phase d h q).1 = .ok ∧
      get_phase (set_phase d h q).2 = some q ∧
      (set_phase d h q).2.sckmode_pol = 0) := by
  constructor
  · intro p
    cases p <;> simp [set_polarity, get_polarity, hb]
  · intro q
    cases q <;> simp [set_phase, get_phase, hb]

/-- Claim C9 (witness): the amended statement at a concrete state. -/
theorem c9_mode_setters_w :
    get_polarity (set_polarity idleDriver hw0 .idleHigh).2 = some .idleHigh ∧
    (set_polarity idleDriver hw0 .idleHigh).2.sckmode_pha = 0 ∧
    get_phase (set_phase idleDriver hw0 .sampleTrailing).2 = some .sampleTrailing ∧
    (set_phase idleDriver hw0 .sampleTrailing).2.sckmode_pol = 0 :=
  ⟨((c9_mode_setters idleDriver hw0 rfl).1 .idleHigh).2.1,
   ((c9_mode_setters idleDriver hw0 rfl).1 .idleHigh).2.2,
   ((c9_mode_setters idleDriver hw0 rfl).2 .sampleTrailing).2.1,
   ((c9_mode_setters idleDriver hw0 rfl).2 .sampleTrailing).2.2⟩

/-! ### Claim C10 -/

/-- Claim C10 (counterexample): invoking `handle_interrupt` on an idle
driver (both pending watermark flags clear, empty buffer cells) with a
registered client panics: the completion condition `0 == 0 && 0 == 0`
passes and `tx_buf.take().unwrap()` unwraps an empty cell. -/
theorem c10_idle_interrupt_panics :
    ip_rxwm hw0 = false ∧ ip_txwm hw0 = false ∧
    handle_interrupt idleDriver hw0 = none := by
  decide

/-- Claim C10 (amended): with both pending watermark flags clear and empty
buffer cells, an idle-state `handle_interrupt` leaves the Transfer State
unchanged, fires no callback and does not panic only when NO client is
registered (the completion block still runs: it re-asserts HOLD framing
and clears both interrupt enables); with a registered client it panics on
`tx_buf.take().unwrap()`. -/
theorem c10_idle_interrupt (h : HwState)
    (h1 : ip_rxwm h = false) (h2 : ip_txwm h = false) :
    handle_interrupt idleNoClient h =
      some (idleNoClient,
            { h with csmode_hold := true, ie_txwm := false, ie_rxwm := false },
            none) ∧
    handle_interrupt idleDriver h = none := by
  constructor
  · simp [handle_interrupt, rx_phase, tx_phase, complete_phase, h1, h2, idleNoClient]
  · simp [handle_interrupt, rx_phase, tx_phase, complete_phase, h1, h2, idleDriver]

/-- Claim C10 (witness): the amended statement at a concrete peripheral
state with both flags clear. -/
theorem c10_idle_interrupt_w :
    handle_interrupt idleNoClient hw0 =
      some (idleNoClient,
            { hw0 with csmode_hold := true, ie_txwm := false, ie_rxwm := false },
            none) ∧
    handle_interrupt idleDriver hw0 = none :=
  c10_idle_interrupt hw0 (by decide) (by decide)

end SifiveSpi
